import Mathlib

/-!
Verification of `src/main.py`, a Keras DCGAN training script for
Fashion-MNIST.  The script is shallowly embedded below:

* pixel arithmetic is modelled over exact rationals (`ℚ`);
* the `tf.data` pipeline (`shuffle`/`batch`/`prefetch`, lines 191-193)
  is modelled on lists, with the shuffle given as an arbitrary
  permutation of the preprocessed training rows;
* the layer stacks of `generator` (lines 77-84) and `discriminator`
  (lines 101-110) are modelled by their shape semantics, one shape
  function per Keras layer, plus an exact-real model of the final
  sigmoid activation;
* the training loop `train_dcgan` (lines 144-161) is modelled as a
  function producing the trace of framework calls it performs
  (`train_on_batch` on the discriminator and on the combined gan,
  assignments to `discriminator.trainable`, and the rendering calls),
  returning `none` when the Python code would raise (the unbound loop
  variable `epoch` for `epochs = 0`);
* `generate_and_save_images` (lines 168-177) is modelled as a function
  from its arguments to the figure it saves (grid cells and file name),
  returning `none` when indexing `predictions[i]` for `i < 25` would
  fail.
-/

namespace DCGAN

/-! ### Pixel preprocessing and display denormalization -/

/-- Training preprocessing of a raw pixel `p ∈ [0, 255]`:
line 28 divides by `255.0` and line 185 applies `* 2. - 1.`. -/
def preprocess (p : ℚ) : ℚ := p / 255 * 2 - 1

/-- Display denormalization used on line 174:
`predictions[i, :, :, 0] * 127.5 + 127.5`, applied per pixel. -/
def denorm (x : ℚ) : ℚ := x * 127.5 + 127.5

/-! ### Constants from the script -/

/-- Line 76: `num_features = 100`, the noise dimension. -/
def num_features : Nat := 100

/-- Lines 50 and 191: `batch_size = 32`. -/
def batch_size : Nat := 32

/-! ### Shape semantics of the Keras layers -/

/-- Shape action of `keras.layers.Dense(units)`: the last axis is
replaced by `units`; undefined on a rank-0 input. -/
def denseLayer (units : Nat) (ds : List Nat) : Option (List Nat) :=
  if ds.isEmpty then none else some (ds.dropLast ++ [units])

/-- Shape action of `keras.layers.Reshape(target)`: defined exactly when
the element counts agree. -/
def reshapeLayer (target ds : List Nat) : Option (List Nat) :=
  if ds.prod = target.prod then some target else none

/-- Shape action of `keras.layers.BatchNormalization()`: the identity. -/
def batchNormLayer (ds : List Nat) : Option (List Nat) := some ds

/-- Shape action of `keras.layers.Conv2DTranspose(filters, _, (sh, sw),
padding='same')` on an `[h, w, c]` input: spatial dims are multiplied by
the strides and the channel count becomes `filters`. -/
def conv2dTransposeSame (filters sh sw : Nat) : List Nat → Option (List Nat)
  | [h, w, _] => some [h * sh, w * sw, filters]
  | _ => none

/-- Shape action of `keras.layers.Conv2D(filters, _, (sh, sw),
padding='same')` on an `[h, w, c]` input: spatial dims become the
ceiling of `dim / stride`. -/
def conv2dSame (filters sh sw : Nat) : List Nat → Option (List Nat)
  | [h, w, _] => some [(h + sh - 1) / sh, (w + sw - 1) / sw, filters]
  | _ => none

/-- Shape action of `keras.layers.LeakyReLU(_)`: the identity. -/
def leakyReluLayer (ds : List Nat) : Option (List Nat) := some ds

/-- Shape action of `keras.layers.Dropout(_)`: the identity. -/
def dropoutLayer (ds : List Nat) : Option (List Nat) := some ds

/-- Shape action of `keras.layers.Flatten()`. -/
def flattenLayer (ds : List Nat) : Option (List Nat) := some [ds.prod]

/-- Per-example shape semantics of the generator Sequential model,
lines 77-84: `Dense(7*7*128)`, `Reshape([7,7,128])`,
`BatchNormalization`, `Conv2DTranspose(64, (5,5), (2,2), 'same')`,
`BatchNormalization`, `Conv2DTranspose(1, (5,5), (2,2), 'same')`. -/
def generatorShape (ds : List Nat) : Option (List Nat) :=
  (denseLayer (7 * 7 * 128) ds).bind fun s1 =>
  (reshapeLayer [7, 7, 128] s1).bind fun s2 =>
  (batchNormLayer s2).bind fun s3 =>
  (conv2dTransposeSame 64 2 2 s3).bind fun s4 =>
  (batchNormLayer s4).bind fun s5 =>
  conv2dTransposeSame 1 2 2 s5

/-- The declared discriminator input shape, line 102:
`input_shape=[28,28,1]`. -/
def discInputShape : List Nat := [28, 28, 1]

/-- Per-example shape semantics of the discriminator Sequential model,
lines 101-110: input check against `[28,28,1]`, then
`Conv2D(64, (5,5), (2,2), 'same')`, `LeakyReLU`, `Dropout`,
`Conv2D(128, (5,5), (2,2), 'same')`, `LeakyReLU`, `Dropout`,
`Flatten`, `Dense(1, activation="sigmoid")`. -/
def discriminatorShape (ds : List Nat) : Option (List Nat) :=
  (if ds = discInputShape then some ds else none).bind fun s0 =>
  (conv2dSame 64 2 2 s0).bind fun s1 =>
  (leakyReluLayer s1).bind fun s2 =>
  (dropoutLayer s2).bind fun s3 =>
  (conv2dSame 128 2 2 s3).bind fun s4 =>
  (leakyReluLayer s4).bind fun s5 =>
  (dropoutLayer s5).bind fun s6 =>
  (flattenLayer s6).bind fun s7 =>
  denseLayer 1 s7

/-- Lift a per-example shape function to a batched tensor shape
`n :: featureShape` (Keras models map over the leading batch axis). -/
def batchApply (f : List Nat → Option (List Nat)) : List Nat → Option (List Nat)
  | [] => none
  | n :: fs => (f fs).map fun out => n :: out

/-- Exact-real model of the sigmoid activation of the discriminator's
final `Dense(1, activation="sigmoid")` layer. -/
noncomputable def sigmoid (x : ℝ) : ℝ := 1 / (1 + Real.exp (-x))

/-! ### The tf.data pipeline, lines 191-193 -/

/-- Semantics of `Dataset.batch(bs, drop_remainder=True)`: batch `i`
is the slice of `bs` consecutive elements starting at `bs * i`; only
the `xs.length / bs` full batches are produced. -/
def batchDrop {α : Type} (bs : Nat) (xs : List α) : List (List α) :=
  (List.range (xs.length / bs)).map fun i => (xs.drop (bs * i)).take bs

/-- Semantics of `Dataset.prefetch(d)`: prefetching overlaps producing
and consuming but yields the same sequence of elements. -/
def prefetch {α : Type} (_d : Nat) (xs : List α) : List α := xs

/-- The pipeline of lines 191-193 applied to the shuffled training
rows: `.batch(batch_size, drop_remainder=True).prefetch(1)`.  The
`shuffle(1000)` step is modelled by taking the shuffled order itself as
input (an arbitrary permutation of the preprocessed rows). -/
def dataset_pipeline {α : Type} (shuffled : List α) : List (List α) :=
  prefetch 1 (batchDrop batch_size shuffled)

/-! ### Trace semantics of the training loop, lines 144-161

The loop's observable framework calls are recorded as events.  `α` is
the type of images and `ν` the type of noise tensors; `gen : ν → List α`
models calling the generator on a noise batch, and
`nf : Nat → Nat → ν` gives the fresh `tf.random.normal` noise drawn in
epoch `e` at batch index `i` (line 149). -/

/-- One observable event of the training loop. -/
inductive Ev (α ν : Type) where
  | setTrainable (b : Bool)
  | discTrain (inputs : List α) (labels : List ℚ)
  | ganTrain (noise : ν) (labels : List ℚ)
  | render (epochIdx : Nat) (test_input : ν)
  deriving DecidableEq

/-- Line 152: `y1 = tf.constant([[0.]] * batch_size + [[1.]] * batch_size)`,
flattened to one rational label per row. -/
def y1 (bs : Nat) : List ℚ := List.replicate bs 0 ++ List.replicate bs 1

/-- Line 155: `y2 = tf.constant([[1.]] * batch_size)`. -/
def y2 (bs : Nat) : List ℚ := List.replicate bs 1

/-- The body of the inner loop, lines 149-157, for one batch: draw
noise, generate images, train the discriminator (trainable set to
`True`) on fakes-then-reals with labels `y1`, then train the gan
(trainable set to `False`) on the same noise with labels `y2`. -/
def batchStep {α ν : Type} (gen : ν → List α) (bs : Nat) (noise : ν)
    (X_batch : List α) : List (Ev α ν) :=
  [Ev.setTrainable true,
   Ev.discTrain (gen noise ++ X_batch) (y1 bs),
   Ev.setTrainable false,
   Ev.ganTrain noise (y2 bs)]

/-- The inner `for X_batch in dataset` loop of epoch `e`, line 148,
starting at batch index `i`. -/
def batchLoop {α ν : Type} (gen : ν → List α) (nf : Nat → Nat → ν)
    (bs : Nat) (e : Nat) : Nat → List (List α) → List (Ev α ν)
  | _, [] => []
  | i, Xb :: rest =>
    batchStep gen bs (nf e i) Xb ++ batchLoop gen nf bs e (i + 1) rest

/-- One iteration of the outer epoch loop, lines 148-159: all batch
steps of epoch `e`, then `generate_and_save_images(generator,
epoch + 1, seed)` on line 159. -/
def epochBody {α ν : Type} (gen : ν → List α) (nf : Nat → Nat → ν)
    (bs : Nat) (batches : List (List α)) (seed : ν) (e : Nat) :
    List (Ev α ν) :=
  batchLoop gen nf bs e 0 batches ++ [Ev.render (e + 1) seed]

/-- The fold step of the outer loop: accumulate the epoch's events and
remember the current value of the Python loop variable `epoch`. -/
def trainStep {α ν : Type} (gen : ν → List α) (nf : Nat → Nat → ν)
    (bs : Nat) (batches : List (List α)) (seed : ν) :
    List (Ev α ν) × Option Nat → Nat → List (Ev α ν) × Option Nat :=
  fun acc e => (acc.1 ++ epochBody gen nf bs batches seed e, some e)

/-- The trace of `train_dcgan(gan, dataset, batch_size, num_features,
epochs)`, lines 144-161.  After the loop, line 161 renders once more
with `epoch + 1` where `epoch` is the loop variable of the finished
loop; if `epochs = 0` the loop never ran, `epoch` is unbound and the
call raises (modelled as `none`). -/
def train_dcgan {α ν : Type} (gen : ν → List α) (nf : Nat → Nat → ν)
    (bs : Nat) (batches : List (List α)) (seed : ν) (epochs : Nat) :
    Option (List (Ev α ν)) :=
  match (List.range epochs).foldl (trainStep gen nf bs batches seed)
      (([] : List (Ev α ν)), (none : Option Nat)) with
  | (_, none) => none
  | (tr, some e) => some (tr ++ [Ev.render (e + 1) seed])

/-- Closed form of the trace produced by a run with `epochs ≥ 1`. -/
def fullTrace {α ν : Type} (gen : ν → List α) (nf : Nat → Nat → ν)
    (bs : Nat) (batches : List (List α)) (seed : ν) (E : Nat) :
    List (Ev α ν) :=
  ((List.range E).flatMap (epochBody gen nf bs batches seed)) ++
    [Ev.render E seed]

/-! ### Observations on traces -/

/-- Tag of a training event: `some true` for a discriminator step,
`some false` for a gan step, `none` otherwise. -/
def stepTag {α ν : Type} : Ev α ν → Option Bool
  | Ev.discTrain _ _ => some true
  | Ev.ganTrain _ _ => some false
  | _ => none

/-- Recognizer for `discriminator.train_on_batch` events (line 154). -/
def isDiscStep {α ν : Type} : Ev α ν → Bool
  | Ev.discTrain _ _ => true
  | _ => false

/-- Recognizer for `gan.train_on_batch` events (line 157). -/
def isGanStep {α ν : Type} : Ev α ν → Bool
  | Ev.ganTrain _ _ => true
  | _ => false

/-- The rendering calls of a trace: epoch argument and test input of
each `generate_and_save_images` call, in order. -/
def renderCalls {α ν : Type} (tr : List (Ev α ν)) : List (Nat × ν) :=
  tr.filterMap fun ev =>
    match ev with
    | Ev.render e t => some (e, t)
    | _ => none

/-- Check that `discriminator.trainable` (starting at `b`) is `true` at
every discriminator step and `false` at every gan step of a trace. -/
def okTrainable {α ν : Type} : Bool → List (Ev α ν) → Bool
  | _, [] => true
  | _, Ev.setTrainable c :: tr => okTrainable c tr
  | b, Ev.discTrain _ _ :: tr => b && okTrainable b tr
  | b, Ev.ganTrain _ _ :: tr => !b && okTrainable b tr
  | b, Ev.render _ _ :: tr => okTrainable b tr

/-- The value of `discriminator.trainable` after running a trace,
starting from `b`. -/
def finalTrainable {α ν : Type} (b : Bool) (tr : List (Ev α ν)) : Bool :=
  tr.foldl
    (fun c ev =>
      match ev with
      | Ev.setTrainable b1 => b1
      | _ => c) b

/-- Python's format spec `04d` applied to a natural number: decimal
digits left-padded with zeros to width 4. -/
def pad4 (n : Nat) : String :=
  String.mk (List.replicate (4 - (toString n).length) '0') ++ toString n

/-- The file name written on line 176. -/
def filename (e : Nat) : String := "image_at_epoch_" ++ pad4 e ++ ".png"

/-- All files a trace writes: one PNG per rendering call. -/
def filesWritten {α ν : Type} (tr : List (Ev α ν)) : List String :=
  (renderCalls tr).map fun c => filename c.1

/-- The figure saved by one `generate_and_save_images` call: the mode
the model was evaluated in, the 25 grid cell images, and the file name. -/
structure SavedFigure where
  trainingMode : Bool
  cells : List (List ℚ)
  file : String
  deriving DecidableEq

/-- Line 174 applied to one predicted image (a list of pixels):
`predictions[i, :, :, 0] * 127.5 + 127.5`. -/
def displayImage (img : List ℚ) : List ℚ := img.map denorm

/-- Model of `generate_and_save_images(model, epoch, test_input)`,
lines 168-177: evaluate the model with `training=False`, plot cells
`predictions[i]` for `i` in `range(25)` (an index error — `none` — if
there are fewer than 25 predictions), and save the figure to
`filename epoch`. -/
def generate_and_save_images {ν : Type} (model : Bool → ν → List (List ℚ))
    (epoch : Nat) (test_input : ν) : Option SavedFigure :=
  let predictions := model false test_input
  if 25 ≤ predictions.length then
    some ⟨false, (predictions.take 25).map displayImage, filename epoch⟩
  else none

/-- Every discriminator step of the trace `tr` trains on
`gen n ++ Xb` with labels `bs` zeros then `bs` ones, and is immediately
followed by setting `trainable` to `False` and a gan step on the same
noise `n` with `bs` labels `1`; `S` constrains the noise and batch. -/
def DiscFollowed {α ν : Type} (gen : ν → List α) (bs : Nat)
    (S : ν → List α → Prop) (tr : List (Ev α ν)) : Prop :=
  ∀ p ins labs, tr.get? p = some (Ev.discTrain ins labs) →
    ∃ n Xb, S n Xb ∧ ins = gen n ++ Xb ∧
      labs = List.replicate bs 0 ++ List.replicate bs 1 ∧
      tr.get? (p + 1) = some (Ev.setTrainable false) ∧
      tr.get? (p + 2) = some (Ev.ganTrain n (List.replicate bs 1))

/-! ### Lemmas about the pipeline -/

theorem dataset_pipeline_def {α : Type} (xs : List α) :
    dataset_pipeline xs = batchDrop 32 xs := rfl

theorem batchDrop_length {α : Type} (bs : Nat) (xs : List α) :
    (batchDrop bs xs).length = xs.length / bs := by
  simp [batchDrop]

theorem slice_le_length {α : Type} {bs i : Nat} {xs : List α}
    (hi : i < xs.length / bs) : bs * i + bs ≤ xs.length := by
  have h1 : bs * (i + 1) ≤ bs * (xs.length / bs) :=
    Nat.mul_le_mul_left bs (Nat.succ_le_of_lt hi)
  have h2 : bs * (xs.length / bs) ≤ xs.length := Nat.mul_div_le _ _
  have h3 : bs * i + bs = bs * (i + 1) := by ring
  omega

theorem mem_batchDrop_length {α : Type} {bs : Nat} {xs : List α} {b : List α}
    (hb : b ∈ batchDrop bs xs) : b.length = bs := by
  simp only [batchDrop, List.mem_map, List.mem_range] at hb
  obtain ⟨i, hi, rfl⟩ := hb
  have := slice_le_length hi
  simp only [List.length_take, List.length_drop]
  omega

theorem mem_batchDrop_subset {α : Type} {bs : Nat} {xs : List α} {b : List α}
    (hb : b ∈ batchDrop bs xs) : ∀ x ∈ b, x ∈ xs := by
  simp only [batchDrop, List.mem_map, List.mem_range] at hb
  obtain ⟨i, _, rfl⟩ := hb
  intro x hx
  exact List.mem_of_mem_drop (List.mem_of_mem_take hx)

theorem batchDrop_flatten_aux {α : Type} (bs : Nat) (xs : List α) :
    ∀ k, bs * k ≤ xs.length →
      ((List.range k).map fun i => (xs.drop (bs * i)).take bs).flatten =
        xs.take (bs * k) := by
  intro k
  induction k with
  | zero => simp
  | succ k ih =>
    intro hk
    have hk' : bs * k ≤ xs.length := by
      have : bs * k ≤ bs * (k + 1) := Nat.mul_le_mul_left bs (Nat.le_succ k)
      omega
    rw [List.range_succ, List.map_append, List.flatten_append, ih hk']
    rw [Nat.mul_succ, List.take_add]
    simp

theorem batchDrop_flatten {α : Type} (bs : Nat) (xs : List α) :
    (batchDrop bs xs).flatten = xs.take (bs * (xs.length / bs)) :=
  batchDrop_flatten_aux bs xs _ (Nat.mul_div_le _ _)

/-- Claim C7: over exact rational arithmetic, the display
denormalization `x * 127.5 + 127.5` of `generate_and_save_images` is
the exact inverse of the training preprocessing `p / 255 * 2 - 1`: for
every raw pixel `p ∈ [0, 255]` the preprocessed value lies in
`[-1, 1]` (the range of the generator's tanh output), and
denormalizing it yields `p` back. -/
theorem c7_preprocess_denorm (p : ℚ) (h0 : 0 ≤ p) (h255 : p ≤ 255) :
    (-1 ≤ preprocess p ∧ preprocess p ≤ 1) ∧ denorm (preprocess p) = p := by
  have hp : preprocess p = p * (2 / 255) - 1 := by rw [preprocess]; ring
  refine ⟨⟨?_, ?_⟩, ?_⟩
  · rw [hp]; linarith
  · rw [hp]; linarith
  · rw [preprocess, denorm]; ring

theorem c7_witness :
    (0 : ℚ) ≤ 100 ∧ (100 : ℚ) ≤ 255 ∧
    ((-1 ≤ preprocess 100 ∧ preprocess 100 ≤ 1) ∧
      denorm (preprocess 100) = 100) :=
  ⟨by norm_num, by norm_num,
    c7_preprocess_denorm 100 (by norm_num) (by norm_num)⟩

/-- Claim C3: for every batch of `n` noise vectors of dimension
`num_features = 100`, the generator outputs `n` images of shape
`[28, 28, 1]`, which is exactly the declared input shape of the
discriminator; the discriminator maps such a batch to `n` single
scalars, and its sigmoid activation always lies in `[0, 1]`. -/
theorem c3_shapes :
    ∀ n : Nat,
      batchApply generatorShape [n, num_features] = some [n, 28, 28, 1] ∧
      generatorShape [num_features] = some discInputShape ∧
      batchApply discriminatorShape (n :: discInputShape) = some [n, 1] ∧
      ∀ x : ℝ, 0 ≤ sigmoid x ∧ sigmoid x ≤ 1 := by
  intro n
  refine ⟨rfl, rfl, rfl, fun x => ⟨?_, ?_⟩⟩
  · unfold sigmoid
    positivity
  · unfold sigmoid
    rw [div_le_one (by positivity)]
    have := Real.exp_pos (-x)
    linarith

/-- Claim C4 counterexample: the claim asserts that the final
`60000 mod 32 = 16` examples of an epoch's shuffled order never appear
in any batch.  In fact `60000 mod 32 = 0`, and for the shuffled order
`List.range 60000` the element at position 59999 (inside the alleged
dropped tail) does appear in a batch of the pipeline. -/
theorem c4_counterexample :
    (60000 : Nat) % 32 = 0 ∧
    ∃ b ∈ dataset_pipeline (List.range 60000), 59999 ∈ b := by
  refine ⟨by norm_num, ?_⟩
  have hflat : (dataset_pipeline (List.range 60000)).flatten =
      List.range 60000 := by
    rw [dataset_pipeline_def, batchDrop_flatten, List.length_range,
      show 32 * (60000 / 32) = 60000 by norm_num]
    exact List.take_of_length_le (le_of_eq (List.length_range 60000))
  have hmem : (59999 : Nat) ∈ (dataset_pipeline (List.range 60000)).flatten := by
    rw [hflat]
    exact List.mem_range.mpr (by norm_num)
  exact List.mem_flatten.mp hmem

/-- Claim C4 (amended): the pipeline is shuffle (a permutation), then
batch with `batch_size = 32` dropping the remainder, then prefetch
(depth 1): every batch has exactly 32 elements, each element is a row
of the preprocessed training set, one epoch yields `floor(N/32)`
batches (1875 for the 60000-example training set), and since
`60000 mod 32 = 0` every example of the epoch's shuffled order appears
in a batch (none are dropped). -/
theorem c4_pipeline {α : Type} (shuffled x_tr : List α)
    (hperm : shuffled.Perm x_tr) :
    (∀ b ∈ dataset_pipeline shuffled, b.length = 32 ∧ ∀ x ∈ b, x ∈ x_tr) ∧
    (dataset_pipeline shuffled).length = shuffled.length / 32 ∧
    (dataset_pipeline shuffled).flatten =
      shuffled.take (32 * (shuffled.length / 32)) ∧
    (shuffled.length = 60000 →
      (dataset_pipeline shuffled).length = 1875 ∧
      (dataset_pipeline shuffled).flatten = shuffled) := by
  have hbs : batch_size = 32 := rfl
  refine ⟨?_, ?_, ?_, ?_⟩
  · intro b hb
    have hb' : b ∈ batchDrop 32 shuffled := by
      simpa [dataset_pipeline, prefetch, hbs] using hb
    exact ⟨mem_batchDrop_length hb', fun x hx =>
      hperm.mem_iff.mp (mem_batchDrop_subset hb' x hx)⟩
  · simpa [dataset_pipeline, prefetch, hbs] using
      batchDrop_length 32 shuffled
  · simpa [dataset_pipeline, prefetch, hbs] using
      batchDrop_flatten 32 shuffled
  · intro hlen
    constructor
    · rw [show (1875 : Nat) = 60000 / 32 by norm_num, ← hlen]
      simpa [dataset_pipeline, prefetch, hbs] using
        batchDrop_length 32 shuffled
    · have h := batchDrop_flatten 32 shuffled
      rw [hlen, show 32 * (60000 / 32) = 60000 by norm_num, ← hlen,
        List.take_length] at h
      simpa [dataset_pipeline, prefetch, hbs] using h

theorem c4_witness :
    (∀ b ∈ dataset_pipeline (List.range 64), b.length = 32 ∧
      ∀ x ∈ b, x ∈ List.range 64) ∧
    (dataset_pipeline (List.range 64)).length = (List.range 64).length / 32 ∧
    (dataset_pipeline (List.range 64)).flatten =
      (List.range 64).take (32 * ((List.range 64).length / 32)) ∧
    ((List.range 64).length = 60000 →
      (dataset_pipeline (List.range 64)).length = 1875 ∧
      (dataset_pipeline (List.range 64)).flatten = List.range 64) :=
  c4_pipeline (List.range 64) (List.range 64) (List.Perm.refl _)

/-! ### The closed form of the training trace -/

theorem foldl_trainSteps {α ν : Type} (gen : ν → List α)
    (nf : Nat → Nat → ν) (bs : Nat) (batches : List (List α)) (seed : ν) :
    ∀ E : Nat,
      (List.range E).foldl (trainStep gen nf bs batches seed)
          (([] : List (Ev α ν)), (none : Option Nat)) =
        ((List.range E).flatMap (epochBody gen nf bs batches seed),
          if E = 0 then none else some (E - 1)) := by
  intro E
  induction E with
  | zero => simp
  | succ E ih =>
    rw [List.range_succ, List.foldl_append, ih, List.flatMap_append]
    simp [trainStep]

theorem train_dcgan_eq {α ν : Type} (gen : ν → List α)
    (nf : Nat → Nat → ν) (bs : Nat) (batches : List (List α)) (seed : ν)
    (E : Nat) (hE : 1 ≤ E) :
    train_dcgan gen nf bs batches seed E =
      some (fullTrace gen nf bs batches seed E) := by
  obtain ⟨F, rfl⟩ : ∃ F, E = F + 1 := ⟨E - 1, by omega⟩
  unfold train_dcgan
  rw [foldl_trainSteps]
  simp [fullTrace]

theorem train_dcgan_zero {α ν : Type} (gen : ν → List α)
    (nf : Nat → Nat → ν) (bs : Nat) (batches : List (List α)) (seed : ν) :
    train_dcgan gen nf bs batches seed 0 = none := rfl

/-! ### Step counting and alternation -/

theorem stepTag_batchStep {α ν : Type} (gen : ν → List α) (bs : Nat)
    (n : ν) (Xb : List α) :
    (batchStep gen bs n Xb).filterMap stepTag = [true, false] := rfl

theorem stepTag_batchLoop {α ν : Type} (gen : ν → List α)
    (nf : Nat → Nat → ν) (bs e : Nat) :
    ∀ (XS : List (List α)) (i : Nat),
      (batchLoop gen nf bs e i XS).filterMap stepTag =
        (List.replicate XS.length [true, false]).flatten := by
  intro XS
  induction XS with
  | nil => intro i; rfl
  | cons X rest ih =>
    intro i
    simp only [batchLoop, List.filterMap_append, ih (i + 1),
      stepTag_batchStep, List.length_cons, List.replicate_succ,
      List.flatten_cons]

theorem stepTag_epochBody {α ν : Type} (gen : ν → List α)
    (nf : Nat → Nat → ν) (bs : Nat) (batches : List (List α)) (seed : ν)
    (e : Nat) :
    (epochBody gen nf bs batches seed e).filterMap stepTag =
      (List.replicate batches.length [true, false]).flatten := by
  simp [epochBody, List.filterMap_append, stepTag_batchLoop, stepTag]

theorem stepTag_epochs {α ν : Type} (gen : ν → List α)
    (nf : Nat → Nat → ν) (bs : Nat) (batches : List (List α)) (seed : ν) :
    ∀ E : Nat,
      ((List.range E).flatMap (epochBody gen nf bs batches seed)).filterMap
          stepTag =
        (List.replicate (E * batches.length) [true, false]).flatten := by
  intro E
  induction E with
  | zero => simp
  | succ E ih =>
    rw [List.range_succ, List.flatMap_append, List.filterMap_append, ih,
      Nat.succ_mul, List.replicate_add, List.flatten_append]
    simp [stepTag_epochBody]

theorem stepTag_fullTrace {α ν : Type} (gen : ν → List α)
    (nf : Nat → Nat → ν) (bs : Nat) (batches : List (List α)) (seed : ν)
    (E : Nat) :
    (fullTrace gen nf bs batches seed E).filterMap stepTag =
      (List.replicate (E * batches.length) [true, false]).flatten := by
  rw [fullTrace, List.filterMap_append, stepTag_epochs]
  simp [stepTag]

theorem countDisc_eq_count_true {α ν : Type} (tr : List (Ev α ν)) :
    tr.countP isDiscStep = (tr.filterMap stepTag).count true := by
  induction tr with
  | nil => rfl
  | cons ev rest ih =>
    cases ev <;>
      simp [isDiscStep, stepTag, List.countP_cons, List.count_cons, ih]

theorem countGan_eq_count_false {α ν : Type} (tr : List (Ev α ν)) :
    tr.countP isGanStep = (tr.filterMap stepTag).count false := by
  induction tr with
  | nil => rfl
  | cons ev rest ih =>
    cases ev <;>
      simp [isGanStep, stepTag, List.countP_cons, List.count_cons, ih]

theorem count_flatten_replicate_pair :
    ∀ k : Nat,
      ((List.replicate k [true, false]).flatten).count true = k ∧
      ((List.replicate k [true, false]).flatten).count false = k := by
  intro k
  induction k with
  | zero => exact ⟨rfl, rfl⟩
  | succ k ih =>
    rw [List.replicate_succ, List.flatten_cons]
    constructor <;> simp [List.count_cons, List.count_append, ih.1, ih.2]

/-- Claim C1: for every `epochs = E ≥ 1` and every dataset of `B`
batches, `train_dcgan` performs in each batch iteration exactly one
discriminator training step immediately followed by exactly one gan
training step: a full run performs exactly `E * B` discriminator
updates and `E * B` gan updates, and the subsequence of training steps
is `disc, gan` repeated `E * B` times (strict alternation within each
batch). -/
theorem c1_alternating_updates {α ν : Type} (gen : ν → List α)
    (nf : Nat → Nat → ν) (bs : Nat) (batches : List (List α)) (seed : ν)
    (E : Nat) (hE : 1 ≤ E) :
    ∃ tr, train_dcgan gen nf bs batches seed E = some tr ∧
      tr.countP isDiscStep = E * batches.length ∧
      tr.countP isGanStep = E * batches.length ∧
      tr.filterMap stepTag =
        (List.replicate (E * batches.length) [true, false]).flatten := by
  refine ⟨fullTrace gen nf bs batches seed E,
    train_dcgan_eq gen nf bs batches seed E hE, ?_, ?_,
    stepTag_fullTrace gen nf bs batches seed E⟩
  · rw [countDisc_eq_count_true, stepTag_fullTrace]
    exact (count_flatten_replicate_pair _).1
  · rw [countGan_eq_count_false, stepTag_fullTrace]
    exact (count_flatten_replicate_pair _).2

theorem c1_witness :
    (1 : Nat) ≤ 1 ∧
    ∃ tr, train_dcgan (fun n : Nat => [n]) (fun _ _ => (0 : Nat)) 1
        [[5]] 0 1 = some tr ∧
      tr.countP isDiscStep = 1 * [[(5 : Nat)]].length ∧
      tr.countP isGanStep = 1 * [[(5 : Nat)]].length ∧
      tr.filterMap stepTag =
        (List.replicate (1 * [[(5 : Nat)]].length) [true, false]).flatten :=
  ⟨by decide,
    c1_alternating_updates (fun n : Nat => [n]) (fun _ _ => (0 : Nat)) 1
      [[5]] 0 1 (by decide)⟩

/-! ### Rendering calls -/

theorem renderCalls_append {α ν : Type} (A B : List (Ev α ν)) :
    renderCalls (A ++ B) = renderCalls A ++ renderCalls B := by
  simp [renderCalls, List.filterMap_append]

theorem renderCalls_batchStep {α ν : Type} (gen : ν → List α) (bs : Nat)
    (n : ν) (Xb : List α) :
    renderCalls (batchStep gen bs n Xb) = [] := rfl

theorem renderCalls_batchLoop {α ν : Type} (gen : ν → List α)
    (nf : Nat → Nat → ν) (bs e : Nat) :
    ∀ (XS : List (List α)) (i : Nat),
      renderCalls (batchLoop gen nf bs e i XS) = [] := by
  intro XS
  induction XS with
  | nil => intro i; rfl
  | cons X rest ih =>
    intro i
    rw [batchLoop, renderCalls_append, renderCalls_batchStep, ih (i + 1)]
    rfl

theorem renderCalls_epochBody {α ν : Type} (gen : ν → List α)
    (nf : Nat → Nat → ν) (bs : Nat) (batches : List (List α)) (seed : ν)
    (e : Nat) :
    renderCalls (epochBody gen nf bs batches seed e) = [(e + 1, seed)] := by
  rw [epochBody, renderCalls_append, renderCalls_batchLoop]
  rfl

theorem renderCalls_epochs {α ν : Type} (gen : ν → List α)
    (nf : Nat → Nat → ν) (bs : Nat) (batches : List (List α)) (seed : ν) :
    ∀ E : Nat,
      renderCalls ((List.range E).flatMap (epochBody gen nf bs batches seed)) =
        (List.range E).map fun e => (e + 1, seed) := by
  intro E
  induction E with
  | zero => rfl
  | succ E ih =>
    rw [List.range_succ, List.flatMap_append, List.map_append,
      renderCalls_append, ih]
    simp [renderCalls_epochBody]

theorem renderCalls_fullTrace {α ν : Type} (gen : ν → List α)
    (nf : Nat → Nat → ν) (bs : Nat) (batches : List (List α)) (seed : ν)
    (E : Nat) :
    renderCalls (fullTrace gen nf bs batches seed E) =
      ((List.range E).map fun e => (e + 1, seed)) ++ [(E, seed)] := by
  rw [fullTrace, renderCalls_append, renderCalls_epochs]
  rfl

/-- Claim C5: during a `train_dcgan` run with `epochs = E ≥ 1`, sample
images are rendered once after every epoch `e ∈ 1..E` and once more
after the loop, always on the fixed seed tensor; each call to
`generate_and_save_images` evaluates the generator in inference mode
(`training=False`) on its test input, plots the first 25 predictions
(as the 5-by-5 grid cells, denormalized for display), and saves the
figure to the file `image_at_epoch_` + zero-padded epoch + `.png`,
where the epoch argument is the 1-based epoch number. -/
theorem c5_rendering {α ν : Type} (gen : ν → List α)
    (nf : Nat → Nat → ν) (bs : Nat) (batches : List (List α)) (seed : ν)
    (E : Nat) (hE : 1 ≤ E) :
    (∃ tr, train_dcgan gen nf bs batches seed E = some tr ∧
      renderCalls tr = ((List.range E).map fun e => (e + 1, seed)) ++
        [(E, seed)]) ∧
    (∀ (model : Bool → ν → List (List ℚ)) (ep : Nat) (t : ν),
      25 ≤ (model false t).length →
      generate_and_save_images model ep t =
        some ⟨false, ((model false t).take 25).map displayImage,
          "image_at_epoch_" ++ pad4 ep ++ ".png"⟩) := by
  constructor
  · exact ⟨fullTrace gen nf bs batches seed E,
      train_dcgan_eq gen nf bs batches seed E hE,
      renderCalls_fullTrace gen nf bs batches seed E⟩
  · intro model ep t h
    simp only [generate_and_save_images, filename]
    rw [if_pos h]

theorem c5_witness :
    (1 : Nat) ≤ 1 ∧
    ((∃ tr, train_dcgan (fun n : Nat => [n]) (fun _ _ => (0 : Nat)) 1
        [[5]] 0 1 = some tr ∧
      renderCalls tr = ((List.range 1).map fun e => (e + 1, 0)) ++
        [(1, 0)]) ∧
    (∀ (model : Bool → Nat → List (List ℚ)) (ep : Nat) (t : Nat),
      25 ≤ (model false t).length →
      generate_and_save_images model ep t =
        some ⟨false, ((model false t).take 25).map displayImage,
          "image_at_epoch_" ++ pad4 ep ++ ".png"⟩)) :=
  ⟨by decide,
    c5_rendering (fun n : Nat => [n]) (fun _ _ => (0 : Nat)) 1 [[5]] 0 1
      (by decide)⟩

/-! ### The discriminator.trainable flag -/

theorem finalTrainable_append {α ν : Type} (b : Bool)
    (A B : List (Ev α ν)) :
    finalTrainable b (A ++ B) = finalTrainable (finalTrainable b A) B := by
  simp [finalTrainable, List.foldl_append]

theorem okTrainable_append {α ν : Type} (b : Bool) (A B : List (Ev α ν)) :
    okTrainable b (A ++ B) =
      (okTrainable b A && okTrainable (finalTrainable b A) B) := by
  induction A generalizing b with
  | nil => simp [okTrainable, finalTrainable]
  | cons ev rest ih =>
    cases ev <;>
      simp [okTrainable, finalTrainable, ih, Bool.and_assoc]

theorem okTrainable_batchStep {α ν : Type} (gen : ν → List α) (bs : Nat)
    (n : ν) (Xb : List α) (b : Bool) :
    okTrainable b (batchStep gen bs n Xb) = true := rfl

theorem finalTrainable_batchStep {α ν : Type} (gen : ν → List α)
    (bs : Nat) (n : ν) (Xb : List α) (b : Bool) :
    finalTrainable b (batchStep gen bs n Xb) = false := rfl

theorem okTrainable_batchLoop {α ν : Type} (gen : ν → List α)
    (nf : Nat → Nat → ν) (bs e : Nat) :
    ∀ (XS : List (List α)) (i : Nat) (b : Bool),
      okTrainable b (batchLoop gen nf bs e i XS) = true := by
  intro XS
  induction XS with
  | nil => intro i b; rfl
  | cons X rest ih =>
    intro i b
    rw [batchLoop, okTrainable_append, okTrainable_batchStep,
      finalTrainable_batchStep, ih (i + 1) false]
    rfl

theorem finalTrainable_batchLoop {α ν : Type} (gen : ν → List α)
    (nf : Nat → Nat → ν) (bs e : Nat) :
    ∀ (XS : List (List α)) (i : Nat),
      finalTrainable false (batchLoop gen nf bs e i XS) = false := by
  intro XS
  induction XS with
  | nil => intro i; rfl
  | cons X rest ih =>
    intro i
    rw [batchLoop, finalTrainable_append, finalTrainable_batchStep,
      ih (i + 1)]

theorem okTrainable_epochBody {α ν : Type} (gen : ν → List α)
    (nf : Nat → Nat → ν) (bs : Nat) (batches : List (List α)) (seed : ν)
    (e : Nat) :
    okTrainable false (epochBody gen nf bs batches seed e) = true := by
  rw [epochBody, okTrainable_append, okTrainable_batchLoop]
  rfl

theorem finalTrainable_epochBody {α ν : Type} (gen : ν → List α)
    (nf : Nat → Nat → ν) (bs : Nat) (batches : List (List α)) (seed : ν)
    (e : Nat) :
    finalTrainable false (epochBody gen nf bs batches seed e) = false := by
  rw [epochBody, finalTrainable_append, finalTrainable_batchLoop]
  rfl

theorem okTrainable_epochs {α ν : Type} (gen : ν → List α)
    (nf : Nat → Nat → ν) (bs : Nat) (batches : List (List α)) (seed : ν) :
    ∀ E : Nat,
      okTrainable false
          ((List.range E).flatMap (epochBody gen nf bs batches seed)) = true ∧
      finalTrainable false
          ((List.range E).flatMap (epochBody gen nf bs batches seed)) =
        false := by
  intro E
  induction E with
  | zero => exact ⟨rfl, rfl⟩
  | succ E ih =>
    rw [List.range_succ, List.flatMap_append, okTrainable_append,
      finalTrainable_append, ih.1, ih.2]
    constructor
    · simp [okTrainable_epochBody]
    · simp [finalTrainable_epochBody]

/-- Claim C6: `discriminator.trainable` is an invariant of the training
loop's step structure.  It is set `False` once at compile time (line
126, before `train_dcgan` runs); in the trace of any `train_dcgan` run
it is `True` at every `discriminator.train_on_batch` event, `False` at
every `gan.train_on_batch` event (it is toggled `True` right before
each discriminator step and `False` right before each gan step), and
it is `False` again when `train_dcgan` returns. -/
theorem c6_trainable_invariant {α ν : Type} (gen : ν → List α)
    (nf : Nat → Nat → ν) (bs : Nat) (batches : List (List α)) (seed : ν)
    (E : Nat) (hE : 1 ≤ E) :
    ∃ tr, train_dcgan gen nf bs batches seed E = some tr ∧
      okTrainable false tr = true ∧ finalTrainable false tr = false := by
  refine ⟨fullTrace gen nf bs batches seed E,
    train_dcgan_eq gen nf bs batches seed E hE, ?_, ?_⟩
  · rw [fullTrace, okTrainable_append,
      (okTrainable_epochs gen nf bs batches seed E).1,
      (okTrainable_epochs gen nf bs batches seed E).2]
    rfl
  · rw [fullTrace, finalTrainable_append,
      (okTrainable_epochs gen nf bs batches seed E).2]
    rfl

theorem c6_witness :
    (1 : Nat) ≤ 1 ∧
    ∃ tr, train_dcgan (fun n : Nat => [n]) (fun _ _ => (0 : Nat)) 1
        [[5]] 0 1 = some tr ∧
      okTrainable false tr = true ∧ finalTrainable false tr = false :=
  ⟨by decide,
    c6_trainable_invariant (fun n : Nat => [n]) (fun _ _ => (0 : Nat)) 1
      [[5]] 0 1 (by decide)⟩

/-- Claim C8: `train_dcgan` requires `epochs ≥ 1`.  With `epochs = 0`
the run fails (the post-loop rendering call reads the never-bound loop
variable `epoch`: the trace is `none`).  For every `E ≥ 1` the run
completes, and the post-loop rendering call reuses epoch index `E` on
the same seed, so the rendering calls end with two identical calls
`(E, seed)` (the file `image_at_epoch_` + pad `E` + `.png` is written
twice, the second write with the same model and the same seed).
Moreover every rendering call requires at least 25 predictions, i.e.
at least 25 rows of test input, which the 32-row seed satisfies. -/
theorem c8_epoch_boundaries {α ν : Type} (gen : ν → List α)
    (nf : Nat → Nat → ν) (bs : Nat) (batches : List (List α)) (seed : ν) :
    train_dcgan gen nf bs batches seed 0 = none ∧
    (∀ E, 1 ≤ E → ∃ tr, train_dcgan gen nf bs batches seed E = some tr ∧
      ∃ pre, renderCalls tr = pre ++ [(E, seed), (E, seed)]) ∧
    (∀ (model : Bool → ν → List (List ℚ)) (ep : Nat) (t : ν),
      ((model false t).length < 25 →
        generate_and_save_images model ep t = none) ∧
      (25 ≤ (model false t).length →
        (generate_and_save_images model ep t).isSome = true)) ∧
    (∀ (model : Bool → ν → List (List ℚ)) (ep : Nat) (t : ν),
      (model false t).length = 32 →
      (generate_and_save_images model ep t).isSome = true) := by
  refine ⟨train_dcgan_zero gen nf bs batches seed, ?_, ?_, ?_⟩
  · intro E hE
    refine ⟨fullTrace gen nf bs batches seed E,
      train_dcgan_eq gen nf bs batches seed E hE,
      (List.range (E - 1)).map fun e => (e + 1, seed), ?_⟩
    obtain ⟨F, rfl⟩ : ∃ F, E = F + 1 := ⟨E - 1, by omega⟩
    rw [renderCalls_fullTrace, List.range_succ, List.map_append]
    simp
  · intro model ep t
    constructor
    · intro h
      simp only [generate_and_save_images]
      rw [if_neg (by omega)]
    · intro h
      simp only [generate_and_save_images]
      rw [if_pos h]
      rfl
  · intro model ep t h
    simp only [generate_and_save_images]
    rw [if_pos (by omega)]
    rfl

theorem c8_witness :
    train_dcgan (fun n : Nat => [n]) (fun _ _ => (0 : Nat)) 1 [[5]] 0 0 =
      none ∧
    (1 : Nat) ≤ 1 ∧
    (∃ tr, train_dcgan (fun n : Nat => [n]) (fun _ _ => (0 : Nat)) 1
        [[5]] 0 1 = some tr ∧
      ∃ pre, renderCalls tr = pre ++ [(1, 0), (1, 0)]) :=
  ⟨(c8_epoch_boundaries (fun n : Nat => [n]) (fun _ _ => (0 : Nat)) 1
      [[5]] 0).1,
    by decide,
    (c8_epoch_boundaries (fun n : Nat => [n]) (fun _ _ => (0 : Nat)) 1
      [[5]] 0).2.1 1 (by decide)⟩

/-- Claim C9: the program persists no model state and defines no
serialization format: the only files written in a `train_dcgan` run's
trace are the sample-image PNGs of `generate_and_save_images`, whose
names all match `image_at_epoch_` + zero-padded epoch + `.png`; no
event of the trace writes network weights, optimizer state, or dataset
contents. -/
theorem c9_files_written {α ν : Type} (gen : ν → List α)
    (nf : Nat → Nat → ν) (bs : Nat) (batches : List (List α)) (seed : ν)
    (E : Nat) (tr : List (Ev α ν))
    (h : train_dcgan gen nf bs batches seed E = some tr) :
    ∀ f ∈ filesWritten tr, ∃ e, f = "image_at_epoch_" ++ pad4 e ++ ".png" := by
  intro f hf
  simp only [filesWritten, List.mem_map] at hf
  obtain ⟨c, _, rfl⟩ := hf
  exact ⟨c.1, rfl⟩

theorem c9_witness :
    ∃ e, "image_at_epoch_0001.png" = "image_at_epoch_" ++ pad4 e ++ ".png" :=
  c9_files_written (fun n : Nat => [n]) (fun _ _ => (0 : Nat)) 1 [] 0 1
    [Ev.render 1 0, Ev.render 1 0] (by decide)
    "image_at_epoch_0001.png" (by decide)

/-! ### Discriminator steps and the gan step that follows each one -/

theorem discFollowed_append {α ν : Type} {gen : ν → List α} {bs : Nat}
    {S : ν → List α → Prop} {A B : List (Ev α ν)}
    (hA : DiscFollowed gen bs S A) (hB : DiscFollowed gen bs S B) :
    DiscFollowed gen bs S (A ++ B) := by
  intro p ins labs hp
  rcases Nat.lt_or_ge p A.length with h | h
  · rw [List.get?_append h] at hp
    obtain ⟨n, Xb, hS, hins, hlabs, h1, h2⟩ := hA p ins labs hp
    have h2len : p + 2 < A.length := by
      obtain ⟨hlt, _⟩ := List.get?_eq_some.mp h2
      exact hlt
    refine ⟨n, Xb, hS, hins, hlabs, ?_, ?_⟩
    · rw [List.get?_append (by omega)]
      exact h1
    · rw [List.get?_append h2len]
      exact h2
  · rw [List.get?_append_right h] at hp
    obtain ⟨n, Xb, hS, hins, hlabs, h1, h2⟩ := hB (p - A.length) ins labs hp
    refine ⟨n, Xb, hS, hins, hlabs, ?_, ?_⟩
    · rw [List.get?_append_right (by omega),
        show p + 1 - A.length = p - A.length + 1 by omega]
      exact h1
    · rw [List.get?_append_right (by omega),
        show p + 2 - A.length = p - A.length + 2 by omega]
      exact h2

theorem discFollowed_batchStep {α ν : Type} {gen : ν → List α} {bs : Nat}
    {S : ν → List α → Prop} {n : ν} {Xb : List α} (hS : S n Xb) :
    DiscFollowed gen bs S (batchStep gen bs n Xb) := by
  intro p ins labs hp
  match p with
  | 0 => simp [batchStep] at hp
  | 1 =>
    simp only [batchStep, List.get?] at hp
    obtain ⟨hins, hlabs⟩ := Ev.discTrain.inj (Option.some.inj hp)
    exact ⟨n, Xb, hS, hins.symm, hlabs.symm, rfl, rfl⟩
  | 2 => simp [batchStep] at hp
  | 3 => simp [batchStep] at hp
  | q + 4 => simp [batchStep, List.get?] at hp

theorem discFollowed_single_render {α ν : Type} {gen : ν → List α}
    {bs : Nat} {S : ν → List α → Prop} {e : Nat} {t : ν} :
    DiscFollowed gen bs S [Ev.render e t] := by
  intro p ins labs hp
  match p with
  | 0 => simp [List.get?] at hp
  | q + 1 => simp [List.get?] at hp

theorem discFollowed_batchLoop {α ν : Type} {gen : ν → List α}
    {nf : Nat → Nat → ν} {bs e : Nat} {batches : List (List α)} :
    ∀ XS : List (List α), (∀ X ∈ XS, X ∈ batches) → ∀ i : Nat,
      DiscFollowed gen bs (fun _ Xb => Xb ∈ batches)
        (batchLoop gen nf bs e i XS) := by
  intro XS
  induction XS with
  | nil =>
    intro _ i p ins labs hp
    simp [batchLoop, List.get?] at hp
  | cons X rest ih =>
    intro hsub i
    exact discFollowed_append
      (discFollowed_batchStep (hsub X (by simp)))
      (ih (fun Y hY => hsub Y (by simp [hY])) (i + 1))

theorem discFollowed_epochBody {α ν : Type} {gen : ν → List α}
    {nf : Nat → Nat → ν} {bs : Nat} {batches : List (List α)} {seed : ν}
    (e : Nat) :
    DiscFollowed gen bs (fun _ Xb => Xb ∈ batches)
      (epochBody gen nf bs batches seed e) :=
  discFollowed_append
    (discFollowed_batchLoop batches (fun _ hX => hX) 0)
    discFollowed_single_render

theorem discFollowed_fullTrace {α ν : Type} {gen : ν → List α}
    {nf : Nat → Nat → ν} {bs : Nat} {batches : List (List α)} {seed : ν}
    (E : Nat) :
    DiscFollowed gen bs (fun _ Xb => Xb ∈ batches)
      (fullTrace gen nf bs batches seed E) := by
  refine discFollowed_append ?_ discFollowed_single_render
  induction E with
  | zero =>
    intro p ins labs hp
    simp [List.get?] at hp
  | succ E ih =>
    rw [List.range_succ, List.flatMap_append]
    refine discFollowed_append ih ?_
    simpa using @discFollowed_epochBody α ν gen nf bs batches seed E

/-- Claim C2: in every batch iteration of `train_dcgan`, the
discriminator step trains on the concatenation of the `batch_size`
generated images followed by the `batch_size` real images of a batch
of the dataset, with label 0 for each of the first `batch_size` rows
(fakes) and label 1 for each of the remaining `batch_size` rows
(reals); it is immediately followed (after setting `trainable` to
`False`) by the gan step, which trains the combined model on the same
noise with label 1 for every row. -/
theorem c2_disc_then_gan {α ν : Type} (gen : ν → List α)
    (nf : Nat → Nat → ν) (bs : Nat) (batches : List (List α)) (seed : ν)
    (E : Nat) (hE : 1 ≤ E) (hgen : ∀ n, (gen n).length = bs)
    (hB : ∀ X ∈ batches, X.length = bs) :
    ∃ tr, train_dcgan gen nf bs batches seed E = some tr ∧
      ∀ p ins labs, tr.get? p = some (Ev.discTrain ins labs) →
        ∃ n Xb, Xb ∈ batches ∧ (gen n).length = bs ∧ Xb.length = bs ∧
          ins = gen n ++ Xb ∧
          labs = List.replicate bs 0 ++ List.replicate bs 1 ∧
          tr.get? (p + 1) = some (Ev.setTrainable false) ∧
          tr.get? (p + 2) = some (Ev.ganTrain n (List.replicate bs 1)) := by
  refine ⟨fullTrace gen nf bs batches seed E,
    train_dcgan_eq gen nf bs batches seed E hE, ?_⟩
  intro p ins labs hp
  obtain ⟨n, Xb, hmem, hins, hlabs, h1, h2⟩ :=
    discFollowed_fullTrace E p ins labs hp
  exact ⟨n, Xb, hmem, hgen n, hB Xb hmem, hins, hlabs, h1, h2⟩

theorem c2_witness :
    (1 : Nat) ≤ 1 ∧ (∀ X ∈ [[(7 : Nat)]], X.length = 1) ∧
    ∃ tr, train_dcgan (fun n : Nat => [n]) (fun _ _ => (3 : Nat)) 1
        [[7]] 0 1 = some tr ∧
      ∀ p ins labs, tr.get? p = some (Ev.discTrain ins labs) →
        ∃ n Xb, Xb ∈ [[(7 : Nat)]] ∧ [n].length = 1 ∧ Xb.length = 1 ∧
          ins = [n] ++ Xb ∧
          labs = List.replicate 1 0 ++ List.replicate 1 1 ∧
          tr.get? (p + 1) = some (Ev.setTrainable false) ∧
          tr.get? (p + 2) = some (Ev.ganTrain n (List.replicate 1 1)) :=
  ⟨by decide, by decide,
    c2_disc_then_gan (fun n : Nat => [n]) (fun _ _ => (3 : Nat)) 1 [[7]] 0 1
      (by decide) (fun n => rfl) (by decide)⟩

end DCGAN
